import Mathlib

/-!
Verification of the shopify-Backend help-centre service against its
natural-language specification.  The definitions below are shallow
embeddings of the TypeScript source: money amounts are exact rationals,
JavaScript `Math.round` is floor (x + 1/2), database rows are structures
and the relational store is a list of rows with an explicit step relation
mirroring the SQL constraints.
-/

namespace ShopifyBackend

/-! ### Rounding primitives (src/src/services/shopify.ts, executeRefund)

`Math.round` in JavaScript rounds half-way cases toward positive
infinity, i.e. `Math.round x = ⌊x + 1/2⌋`.  `round2 x` is
`Math.round (x * 100) / 100`, the per-transaction 2-decimal rounding. -/

def jsRound (x : ℚ) : ℤ := ⌊x + 1/2⌋

def round2 (x : ℚ) : ℚ := (jsRound (x * 100) : ℚ) / 100

/-- One kept transaction of the provider's suggested refund breakdown
(`parent_id`, `amount`, `gateway` all present; `kind` is the constant
`'refund'` and is omitted). -/
structure RefundTransaction where
  parent_id : ℤ
  amount : ℚ
  gateway : String
deriving DecidableEq, Repr

instance : Inhabited RefundTransaction := ⟨⟨0, 0, ""⟩⟩

/-- The per-transaction scaling step of `executeRefund` (shopify.ts
lines 150-155): each amount is multiplied by
`manualAmount / suggestedTotal` and rounded to 2 decimals. -/
def scaledOf (m : ℚ) (ts : List RefundTransaction) : List RefundTransaction :=
  let suggestedTotal := (ts.map (·.amount)).sum
  ts.map fun t => { t with amount := round2 (t.amount * (m / suggestedTotal)) }

/-- The rounding residual `diff` of `executeRefund` (shopify.ts
lines 156-157): `Math.round((manualAmount - newTotal) * 100) / 100`. -/
def residualOf (m : ℚ) (ts : List RefundTransaction) : ℚ :=
  round2 (m - ((scaledOf m ts).map (·.amount)).sum)

/-- Adding the residual to the first transaction, clamped to `≥ 0`
(shopify.ts lines 158-161). -/
def applyResidual (diff : ℚ) : List RefundTransaction → List RefundTransaction
  | [] => []
  | t0 :: rest => { t0 with amount := max 0 (t0.amount + diff) } :: rest

/-- The manual-override reconciliation block of `executeRefund`
(shopify.ts lines 147-164), applied to the kept suggested transactions.
Scaling happens only when a positive manual amount was supplied, the
transaction list is non-empty, the suggested total is positive and the
manual amount differs from it by more than 0.001. -/
def scaleTransactions (manualRefundAmount : Option ℚ)
    (ts : List RefundTransaction) : List RefundTransaction :=
  match manualRefundAmount with
  | none => ts
  | some m =>
    if 0 < m ∧ 0 < ts.length then
      let suggestedTotal := (ts.map (·.amount)).sum
      if 0 < suggestedTotal ∧ 1/1000 < |m - suggestedTotal| then
        let diff := residualOf m ts
        if diff ≠ 0 then applyResidual diff (scaledOf m ts) else scaledOf m ts
      else ts
    else ts

/-- The route-level resolution of the caller's `refundAmount`
(src/src/routes/helpRequests.ts lines 323-327): a manual amount is
forwarded only when it is a number strictly greater than 0; otherwise it
is `undefined` and the refund proceeds without an override. -/
def resolveManualAmount (refundAmount : Option ℚ) : Option ℚ :=
  match refundAmount with
  | some a => if 0 < a then some a else none
  | none => none

/-! ### Order-number normalization

`findOrderByName` (shopify.ts line 49), `hasOpenRequestForOrder` and
`create` (repositories/helpRequests.ts lines 21 and 35) all normalize via
`orderNumber.replace(/^#/, '').trim()`; `create` additionally falls back
to the raw input when the normalized string is empty (`|| body.order_number`). -/

/-- JavaScript `s.replace(/^#/, '')`: strip one leading `#` if present. -/
def stripLeadingHash (s : String) : String :=
  match s.data with
  | '#' :: rest => String.mk rest
  | _ => s

/-- JavaScript `s.trim()`: drop whitespace from both ends. -/
def jsTrim (s : String) : String :=
  String.mk (((s.data.dropWhile Char.isWhitespace).reverse.dropWhile Char.isWhitespace).reverse)

/-- JavaScript `s.toLowerCase()` (ASCII-faithful). -/
def jsToLower (s : String) : String :=
  String.mk (s.data.map Char.toLower)

/-- Normalization used by `hasOpenRequestForOrder` (repositories/helpRequests.ts line 21). -/
def hasOpenRequestNormalize (s : String) : String :=
  jsTrim (stripLeadingHash s)

/-- Normalization used by `create` (repositories/helpRequests.ts line 35),
with the `|| body.order_number` fallback for an empty result. -/
def createNormalize (s : String) : String :=
  let n := jsTrim (stripLeadingHash s)
  if n = "" then s else n

/-- Normalization used by `findOrderByName` (shopify.ts line 49); the
provider is then queried for the name `"#" ++ normalized`. -/
def findOrderByNameNormalize (s : String) : String :=
  jsTrim (stripLeadingHash s)

/-! ### Chat authorization (src/src/routes/chat.ts)

`req.auth` is set by the router middleware only for a valid access
credential; the email query parameter is a string (JavaScript truthiness
makes the empty string behave like an absent parameter). -/

/-- Decoded access-credential payload (middleware/auth.ts). -/
structure AuthPayload where
  userId : String
  email : String
deriving DecidableEq, Repr

inductive Sender where
  | customer
  | admin
deriving DecidableEq, Repr

/-- Outcome of the sender-determination step of `POST /chat/:requestId/messages`
(chat.ts lines 79-89). -/
inductive PostOutcome where
  | message (sender : Sender) (senderId : Option String)
  | unauthorized
deriving DecidableEq, Repr

/-- Sender determination of `POST /chat/:requestId/messages` (chat.ts
lines 79-89): an authenticated admin always wins; otherwise a non-empty
email query parameter matching the request's customer email
case-insensitively gives `customer`; else 401. -/
def determineSender (auth : Option AuthPayload) (emailParam : Option String)
    (requestEmail : String) : PostOutcome :=
  match auth with
  | some u => .message .admin (some u.userId)
  | none =>
    match emailParam with
    | some e =>
      if e ≠ "" ∧ jsToLower e = jsToLower requestEmail then .message .customer none
      else .unauthorized
    | none => .unauthorized

/-- Outcome of the access checks of `GET /chat/:requestId/messages`
(chat.ts lines 45-57). -/
inductive ReadOutcome where
  | ok
  | unauthorized
  | forbidden
deriving DecidableEq, Repr

/-- Access checks of `GET /chat/:requestId/messages` (chat.ts lines
45-57): 401 when neither an email parameter nor auth is present; 403
whenever a non-empty email parameter mismatches the request's customer
email case-insensitively — even for an authenticated admin. -/
def readMessagesAuth (auth : Option AuthPayload) (emailParam : Option String)
    (requestEmail : String) : ReadOutcome :=
  let e := emailParam.getD ""
  if e = "" ∧ auth = none then .unauthorized
  else if e ≠ "" ∧ jsToLower e ≠ jsToLower requestEmail then .forbidden
  else .ok

/-! ### Partial refund (src/src/services/shopify.ts, refundPartialOrder) -/

/-- A line item of the provider order (only the fields the refund path
reads). -/
structure OrderLineItem where
  id : ℤ
  quantity : ℤ
deriving DecidableEq, Repr

/-- One entry of the caller's `refundLineItems` array. -/
structure RefundLineItemRequest where
  lineItemId : ℤ
  quantity : ℤ
deriving DecidableEq, Repr

/-- One entry forwarded to the provider's refund-calculate call. -/
structure RefundItemInput where
  line_item_id : ℤ
  quantity : ℤ
  restock_type : String
deriving DecidableEq, Repr

/-- `byId.get` on `new Map(order.line_items.map(li => [li.id, li]))`:
JavaScript `Map` keeps the last binding for a duplicated key, so lookup
finds the last line item with the given id. -/
def byIdGet (lineItems : List OrderLineItem) (id : ℤ) : Option OrderLineItem :=
  lineItems.reverse.find? fun li => li.id == id

/-- The item-building loop of `refundPartialOrder` (shopify.ts lines
224-232): entries with non-positive requested quantity are skipped;
a remaining entry whose id is not on the order raises an error; the
clamped quantity `min requested available` is pushed when positive. -/
def buildRefundItems (lineItems : List OrderLineItem) (restockType : String) :
    List RefundLineItemRequest → Except String (List RefundItemInput)
  | [] => .ok []
  | r :: rest =>
    if r.quantity ≤ 0 then buildRefundItems lineItems restockType rest
    else
      match byIdGet lineItems r.lineItemId with
      | none => .error ("Line item " ++ toString r.lineItemId ++ " not found in order")
      | some li =>
        let qty := min r.quantity li.quantity
        (buildRefundItems lineItems restockType rest).map fun items =>
          if 0 < qty then ⟨r.lineItemId, qty, restockType⟩ :: items else items

/-- `refundPartialOrder` (shopify.ts lines 212-237) up to the point where
the refund is executed: empty input errors, then the loop builds the
clamped item list, and an empty result errors. On success the returned
list is what is forwarded to the provider. -/
def refundPartialOrder (lineItems : List OrderLineItem) (restockType : String)
    (refundLineItems : List RefundLineItemRequest) :
    Except String (List RefundItemInput) :=
  if refundLineItems.length = 0 then
    .error "At least one line item with quantity > 0 is required"
  else
    match buildRefundItems lineItems restockType refundLineItems with
    | .error e => .error e
    | .ok items =>
      if items.length = 0 then
        .error "At least one line item with quantity > 0 is required"
      else .ok items

/-! ### Unread count for admin (src/src/repositories/chat.ts lines 68-96) -/

/-- One `chat_messages` row (the fields the unread-count query reads);
`created_at` is a timestamp modelled as an integer. -/
structure ChatMessage where
  sender : Sender
  created_at : ℤ
deriving DecidableEq, Repr

/-- SQL `MAX(created_at)` over a set of rows: `none` on the empty set. -/
def maxTime : List ℤ → Option ℤ
  | [] => none
  | t :: ts =>
    match maxTime ts with
    | none => some t
    | some m => some (max t m)

/-- `last_admin_msg` CTE: `MAX(created_at)` over the request's
admin-sent messages. -/
def lastAdminTime (msgs : List ChatMessage) : Option ℤ :=
  maxTime ((msgs.filter fun m => decide (m.sender = Sender.admin)).map (·.created_at))

/-- `getUnreadCountForAdmin` (chat.ts repository lines 68-96): counts the
request's customer-sent messages with `created_at >
COALESCE(last_admin_time, request_time)`. -/
def getUnreadCountForAdmin (requestCreated : ℤ) (msgs : List ChatMessage) : ℕ :=
  let threshold := (lastAdminTime msgs).getD requestCreated
  (msgs.filter fun m => decide (m.sender = Sender.customer ∧ threshold < m.created_at)).length

/-- Modelled from the spec: counts customer-sent messages created
strictly after the later of the request's creation time and the most
recent admin-sent message's creation time. -/
def specUnreadCountForAdmin (requestCreated : ℤ) (msgs : List ChatMessage) : ℕ :=
  let threshold :=
    match lastAdminTime msgs with
    | none => requestCreated
    | some t => max requestCreated t
  (msgs.filter fun m => decide (m.sender = Sender.customer ∧ threshold < m.created_at)).length

/-! ### Help-request store and the one-open-request-per-order index
(database/schema: `idx_help_requests_one_open_per_order`, a unique
partial index on `order_number` `WHERE status NOT IN ('completed',
'rejected')`). -/

/-- The five statuses allowed by the `help_requests.status` CHECK
constraint. -/
inductive HStatus where
  | pending
  | in_progress
  | approved
  | rejected
  | completed
deriving DecidableEq, Repr

/-- The partial-index predicate `status NOT IN ('completed', 'rejected')`. -/
def HStatus.isOpen : HStatus → Bool :=
  fun s => decide (s ≠ .completed ∧ s ≠ .rejected)

/-- A `help_requests` row (the columns the index reads). -/
structure HRequest where
  order_number : String
  status : HStatus
deriving DecidableEq, Repr

/-- One storage-layer transition of the `help_requests` table.  The only
guard is the unique partial index itself: an `INSERT`, or an `UPDATE` of
a row's status, succeeds exactly when the resulting table has no second
open row with the same order number.  There is no application-level
pre-check here — concurrent submissions that race past the route's
`hasOpenRequestForOrder` check still go through these steps.  (The
application never updates `order_number`, and rows are never deleted.) -/
inductive StoreStep : List HRequest → List HRequest → Prop where
  | insert (store : List HRequest) (r : HRequest)
      (h : r.status.isOpen = true →
        ∀ x ∈ store, x.order_number = r.order_number → x.status.isOpen = false) :
      StoreStep store (r :: store)
  | update (l1 l2 : List HRequest) (r : HRequest) (s : HStatus)
      (h : s.isOpen = true →
        ∀ x ∈ l1 ++ l2, x.order_number = r.order_number → x.status.isOpen = false) :
      StoreStep (l1 ++ r :: l2) (l1 ++ { r with status := s } :: l2)

/-- Tables reachable from the empty table through index-respecting
inserts and updates. -/
inductive StoreReachable : List HRequest → Prop where
  | init : StoreReachable []
  | step {s s' : List HRequest} : StoreReachable s → StoreStep s s' → StoreReachable s'

/-- No two distinct rows are simultaneously open for the same order
number. -/
def OneOpenPerOrder (store : List HRequest) : Prop :=
  store.Pairwise fun a b =>
    a.order_number = b.order_number → ¬(a.status.isOpen = true ∧ b.status.isOpen = true)

/-! ## Theorems -/

/-- Claim C9 (confirmed): the inputs `"#1001"`, `"1001"` and `" 1001 "`
all normalize to the order number `"1001"` in the open-request check
(`hasOpenRequestForOrder`), in request creation (`create`) and in
provider order lookup (`findOrderByName`). -/
theorem order_number_normalization_agrees :
    hasOpenRequestNormalize "#1001" = "1001" ∧
    hasOpenRequestNormalize "1001" = "1001" ∧
    hasOpenRequestNormalize " 1001 " = "1001" ∧
    createNormalize "#1001" = "1001" ∧
    createNormalize "1001" = "1001" ∧
    createNormalize " 1001 " = "1001" ∧
    findOrderByNameNormalize "#1001" = "1001" ∧
    findOrderByNameNormalize "1001" = "1001" ∧
    findOrderByNameNormalize " 1001 " = "1001" := by
  refine ⟨?_, ?_, ?_, ?_, ?_, ?_, ?_, ?_, ?_⟩ <;> decide

/-- Claim C10 (confirmed): on the chat read path a non-empty email query
parameter that mismatches the request's customer email yields Forbidden
even when a valid admin credential is present, whereas on the post path
the same admin credential is attributed `admin` regardless of the email
parameter. -/
theorem read_mismatched_email_overrides_admin (u : AuthPayload) (e reqEmail : String)
    (hne : e ≠ "") (hmm : jsToLower e ≠ jsToLower reqEmail) :
    readMessagesAuth (some u) (some e) reqEmail = .forbidden ∧
    determineSender (some u) (some e) reqEmail = .message .admin (some u.userId) := by
  constructor
  · simp [readMessagesAuth, hne, hmm]
  · rfl

/-- Witness for `read_mismatched_email_overrides_admin` at a concrete
admin credential, email parameter and request email. -/
theorem read_mismatched_email_overrides_admin_witness :
    ("X@B.com" ≠ "" ∧ jsToLower "X@B.com" ≠ jsToLower "a@b.com") ∧
    (readMessagesAuth (some ⟨"u1", "admin@shop.com"⟩) (some "X@B.com") "a@b.com" = .forbidden ∧
     determineSender (some ⟨"u1", "admin@shop.com"⟩) (some "X@B.com") "a@b.com" =
       .message .admin (some "u1")) :=
  ⟨⟨by decide, by decide⟩,
    read_mismatched_email_overrides_admin ⟨"u1", "admin@shop.com"⟩ "X@B.com" "a@b.com"
      (by decide) (by decide)⟩

/-- Claim C8 (confirmed): posting to a chat thread attributes the message
`admin` whenever a valid admin credential is present, regardless of the
email parameter; otherwise a non-empty email matching the request's
customer email case-insensitively is attributed `customer`; otherwise
the post is Unauthorized. -/
theorem post_message_sender_attribution :
    (∀ (u : AuthPayload) (emailParam : Option String) (reqEmail : String),
      determineSender (some u) emailParam reqEmail = .message .admin (some u.userId)) ∧
    (∀ (e reqEmail : String), e ≠ "" → jsToLower e = jsToLower reqEmail →
      determineSender none (some e) reqEmail = .message .customer none) ∧
    (∀ (e reqEmail : String), jsToLower e ≠ jsToLower reqEmail →
      determineSender none (some e) reqEmail = .unauthorized) ∧
    (∀ reqEmail : String, determineSender none none reqEmail = .unauthorized) := by
  refine ⟨fun u ep re => rfl, fun e re hne hmatch => ?_, fun e re hmm => ?_, fun re => rfl⟩
  · simp [determineSender, hne, hmatch]
  · simp [determineSender, hmm]

/-- Witness for `post_message_sender_attribution`: the admin branch and
the matching-customer branch at concrete inputs. -/
theorem post_message_sender_attribution_witness :
    ("A@B.com" ≠ "" ∧ jsToLower "A@B.com" = jsToLower "a@b.com") ∧
    determineSender (some ⟨"u1", "admin@shop.com"⟩) (some "zzz@else.com") "a@b.com" =
      .message .admin (some "u1") ∧
    determineSender none (some "A@B.com") "a@b.com" = .message .customer none :=
  ⟨⟨by decide, by decide⟩,
    post_message_sender_attribution.1 ⟨"u1", "admin@shop.com"⟩ (some "zzz@else.com") "a@b.com",
    post_message_sender_attribution.2.1 "A@B.com" "a@b.com" (by decide) (by decide)⟩

/-- Claim C4 counterexample: a manual refund amount of −5 is not rejected
— the route resolves it to `undefined` and the refund executes with the
provider-suggested transaction unchanged (amount 5), with no
ValidationError anywhere on the path. -/
theorem nonpositive_manual_amount_not_rejected :
    resolveManualAmount (some (-5)) = none ∧
    scaleTransactions (resolveManualAmount (some (-5)))
      [⟨1, 5, "gateway"⟩] = [⟨1, 5, "gateway"⟩] := by
  constructor
  · norm_num [resolveManualAmount]
  · norm_num [resolveManualAmount, scaleTransactions]

/-- Claim C4 (corrected): a non-positive manual refund amount is silently
ignored — the route treats it as absent and the refund proceeds with the
provider-suggested transactions unchanged, rather than being rejected as
a ValidationError. -/
theorem nonpositive_manual_amount_ignored (a : ℚ) (h : a ≤ 0) :
    resolveManualAmount (some a) = none ∧
    ∀ ts : List RefundTransaction, scaleTransactions (resolveManualAmount (some a)) ts = ts := by
  have hres : resolveManualAmount (some a) = none := by
    simp [resolveManualAmount, not_lt.mpr h]
  exact ⟨hres, fun ts => by rw [hres]; rfl⟩

/-- Witness for `nonpositive_manual_amount_ignored` at −3. -/
theorem nonpositive_manual_amount_ignored_witness :
    ((-3 : ℚ) ≤ 0) ∧
    (resolveManualAmount (some (-3)) = none ∧
     ∀ ts : List RefundTransaction, scaleTransactions (resolveManualAmount (some (-3))) ts = ts) :=
  ⟨by norm_num, nonpositive_manual_amount_ignored (-3) (by norm_num)⟩

/-- Claim C6 (confirmed): when the manual override is within 0.001 of the
suggested total, or the suggested total is 0, the kept suggested
transactions are used unchanged — no scaling or residual correction. -/
theorem refund_identity_case (m : ℚ) (ts : List RefundTransaction)
    (h : |m - (ts.map (·.amount)).sum| ≤ 1/1000 ∨ (ts.map (·.amount)).sum = 0) :
    scaleTransactions (some m) ts = ts := by
  have hinner : ¬(0 < (ts.map (·.amount)).sum ∧
      1/1000 < |m - (ts.map (·.amount)).sum|) := by
    rcases h with h | h
    · rintro ⟨-, hgt⟩; exact absurd h (not_le.mpr hgt)
    · rintro ⟨hpos, -⟩; rw [h] at hpos; exact lt_irrefl 0 hpos
  by_cases houter : 0 < m ∧ 0 < ts.length
  · simp only [scaleTransactions]
    rw [if_pos houter, if_neg hinner]
  · simp only [scaleTransactions]
    rw [if_neg houter]

/-- Witness for `refund_identity_case`: a manual amount equal to the
suggested total leaves the single suggested transaction unchanged. -/
theorem refund_identity_case_witness :
    (|(5 : ℚ) - ((([⟨1, 5, "gateway"⟩] : List RefundTransaction).map (·.amount)).sum)| ≤ 1/1000 ∨
      (([⟨1, 5, "gateway"⟩] : List RefundTransaction).map (·.amount)).sum = 0) ∧
    scaleTransactions (some 5) [⟨1, 5, "gateway"⟩] = [⟨1, 5, "gateway"⟩] :=
  ⟨Or.inl (by norm_num), refund_identity_case 5 [⟨1, 5, "gateway"⟩] (Or.inl (by norm_num))⟩

/-! ### Refund reconciliation (claim C1) -/

/-- Every 2-decimal rounded value is an integer number of cents. -/
theorem sum_map_round2_cents {α : Type} (f : α → ℚ) (l : List α) :
    ∃ k : ℤ, (l.map fun a => round2 (f a)).sum = (k : ℚ) / 100 := by
  induction l with
  | nil => exact ⟨0, by simp⟩
  | cons a l ih =>
    obtain ⟨k, hk⟩ := ih
    refine ⟨jsRound (f a * 100) + k, ?_⟩
    rw [List.map_cons, List.sum_cons, hk, round2]
    push_cast
    ring

/-- The amounts of the scaled transaction list. -/
theorem scaledOf_amounts (m : ℚ) (ts : List RefundTransaction) :
    (scaledOf m ts).map (·.amount) =
      ts.map fun t => round2 (t.amount * (m / (ts.map (·.amount)).sum)) := by
  simp [scaledOf, List.map_map, Function.comp]

/-- Subtracting an integer number of cents commutes with 2-decimal
rounding. -/
theorem round2_sub_cents (m : ℚ) (k : ℤ) :
    round2 (m - (k : ℚ) / 100) = round2 m - (k : ℚ) / 100 := by
  unfold round2 jsRound
  rw [show (m - (k : ℚ) / 100) * 100 = m * 100 - k by ring]
  rw [show m * 100 - (k : ℚ) + 1/2 = (m * 100 + 1/2) - k by ring]
  rw [Int.floor_sub_int]
  push_cast
  ring

/-- The scaled total is an integer number of cents. -/
theorem scaled_total_cents (m : ℚ) (ts : List RefundTransaction) :
    ∃ k : ℤ, ((scaledOf m ts).map (·.amount)).sum = (k : ℚ) / 100 := by
  rw [scaledOf_amounts]
  exact sum_map_round2_cents _ ts

/-- Claim C1 counterexample: four suggested transactions of amount 1
(so S = 4 > 0) with manual override M = 0.02 (so M > 0 and
|M − S| > 0.001) produce adjusted transactions summing to 0.03, not to
M = 0.02 — the residual is −0.02 but the first scaled amount is only
0.01, so the `Math.max(0, ...)` clamp absorbs a cent.  Both 0.03 and
0.02 are exact 2-decimal values, so the sum is not M even to 2 decimal
places. -/
theorem refund_scaling_claim_false :
    (0 : ℚ) < 1/50 ∧
    0 < ((([⟨1, 1, "g"⟩, ⟨2, 1, "g"⟩, ⟨3, 1, "g"⟩, ⟨4, 1, "g"⟩] :
        List RefundTransaction).map (·.amount)).sum) ∧
    1/1000 < |1/50 - (([⟨1, 1, "g"⟩, ⟨2, 1, "g"⟩, ⟨3, 1, "g"⟩, ⟨4, 1, "g"⟩] :
        List RefundTransaction).map (·.amount)).sum| ∧
    ((scaleTransactions (some (1/50))
        [⟨1, 1, "g"⟩, ⟨2, 1, "g"⟩, ⟨3, 1, "g"⟩, ⟨4, 1, "g"⟩]).map (·.amount)).sum = 3/100 ∧
    round2 (1/50) = 1/50 ∧
    (3/100 : ℚ) ≠ 1/50 := by
  refine ⟨by norm_num, by norm_num, ?_, ?_, by norm_num [round2, jsRound], by norm_num⟩
  · rw [show ((([⟨1, 1, "g"⟩, ⟨2, 1, "g"⟩, ⟨3, 1, "g"⟩, ⟨4, 1, "g"⟩] :
        List RefundTransaction).map (·.amount)).sum) = 4 by norm_num]
    rw [show |(1 : ℚ)/50 - 4| = 199/50 by rw [abs_of_nonpos] <;> norm_num]
    norm_num
  · norm_num [scaleTransactions, scaledOf, residualOf, applyResidual, round2, jsRound, max_def]
    rw [if_pos (show (1 : ℚ)/1000 < |(199 : ℚ)/50| by rw [abs_of_pos] <;> norm_num)]
    norm_num

/-- Claim C1 (corrected): under the claim's preconditions (S > 0, M > 0,
|M − S| > 0.001, at least one transaction) and provided the residual
correction does not drive the first scaled amount negative (the
`Math.max(0, ...)` clamp does not engage), the adjusted transactions sum
exactly to M rounded to 2 decimal places. -/
theorem refund_scaling_reconciles (m : ℚ) (ts : List RefundTransaction)
    (hm : 0 < m)
    (hlen : 0 < ts.length)
    (hS : 0 < (ts.map (·.amount)).sum)
    (hfar : 1/1000 < |m - (ts.map (·.amount)).sum|)
    (hclamp : residualOf m ts = 0 ∨ 0 ≤ (scaledOf m ts).headI.amount + residualOf m ts) :
    ((scaleTransactions (some m) ts).map (·.amount)).sum = round2 m := by
  obtain ⟨k, hk⟩ := scaled_total_cents m ts
  have hres : residualOf m ts = round2 m - (k : ℚ) / 100 := by
    rw [residualOf, hk, round2_sub_cents]
  simp only [scaleTransactions]
  rw [if_pos ⟨hm, hlen⟩, if_pos ⟨hS, hfar⟩]
  by_cases hd : residualOf m ts = 0
  · rw [if_neg (by simpa using hd), hk]
    have : round2 m - (k : ℚ) / 100 = 0 := by rw [← hres, hd]
    linarith
  · rw [if_pos hd]
    cases hts : scaledOf m ts with
    | nil =>
      exfalso
      have : (scaledOf m ts).length = ts.length := by simp [scaledOf]
      rw [hts] at this
      simp at this
      omega
    | cons t0 rest =>
      have hhead : (scaledOf m ts).headI = t0 := by rw [hts]; rfl
      have hpos : 0 ≤ t0.amount + residualOf m ts := by
        rcases hclamp with h | h
        · exact absurd h hd
        · rwa [hhead] at h
      have hsum : t0.amount + (rest.map (·.amount)).sum = (k : ℚ) / 100 := by
        rw [hts] at hk
        simpa using hk
      simp only [applyResidual, List.map_cons, List.sum_cons]
      rw [max_eq_right hpos, hres]
      linarith [hsum]

/-- Witness for `refund_scaling_reconciles`: suggested amounts 10, 10
and 5 (S = 25) with manual override M = 10 scale to 4, 4 and 2, summing
exactly to 10. -/
theorem refund_scaling_reconciles_witness :
    ((0 : ℚ) < 10 ∧
      0 < ((([⟨1, 10, "g"⟩, ⟨2, 10, "g"⟩, ⟨3, 5, "g"⟩] :
          List RefundTransaction).map (·.amount)).sum)) ∧
    ((scaleTransactions (some 10)
        [⟨1, 10, "g"⟩, ⟨2, 10, "g"⟩, ⟨3, 5, "g"⟩]).map (·.amount)).sum = round2 10 := by
  have hS : ((([⟨1, 10, "g"⟩, ⟨2, 10, "g"⟩, ⟨3, 5, "g"⟩] :
      List RefundTransaction).map (·.amount)).sum) = 25 := by norm_num
  refine ⟨⟨by norm_num, by rw [hS]; norm_num⟩, ?_⟩
  refine refund_scaling_reconciles 10 _ (by norm_num) (by norm_num) (by rw [hS]; norm_num) ?_ ?_
  · rw [hS]
    rw [show |(10 : ℚ) - 25| = 15 by rw [abs_of_nonpos] <;> norm_num]
    norm_num
  · left
    norm_num [residualOf, scaledOf, round2, jsRound]

/-! ### Partial refund (claims C3 and C7) -/

/-- The item-building loop errors as soon as it reaches an entry with
positive requested quantity whose id is not on the order. -/
theorem buildRefundItems_error_of_unknown (lineItems : List OrderLineItem) (rt : String)
    (req : List RefundLineItemRequest) (e : RefundLineItemRequest)
    (he : e ∈ req) (hq : 0 < e.quantity) (hu : byIdGet lineItems e.lineItemId = none) :
    ∃ msg, buildRefundItems lineItems rt req = .error msg := by
  induction req with
  | nil => cases he
  | cons r rest ih =>
    rcases List.mem_cons.mp he with rfl | hmem
    · rw [buildRefundItems, if_neg (not_le.mpr hq), hu]
      exact ⟨_, rfl⟩
    · by_cases hr : r.quantity ≤ 0
      · rw [buildRefundItems, if_pos hr]
        exact ih hmem
      · rw [buildRefundItems, if_neg hr]
        cases hb : byIdGet lineItems r.lineItemId with
        | none => exact ⟨_, rfl⟩
        | some li =>
          obtain ⟨msg, hmsg⟩ := ih hmem
          exact ⟨msg, by rw [hmsg]; rfl⟩

/-- Skipping: when every requested quantity is non-positive the loop
builds the empty item list. -/
theorem buildRefundItems_all_nonpos (lineItems : List OrderLineItem) (rt : String)
    (req : List RefundLineItemRequest) (h : ∀ r ∈ req, r.quantity ≤ 0) :
    buildRefundItems lineItems rt req = .ok [] := by
  induction req with
  | nil => rfl
  | cons r rest ih =>
    rw [buildRefundItems, if_pos (h r (List.mem_cons_self r rest))]
    exact ih fun x hx => h x (List.mem_cons_of_mem r hx)

/-- Every item produced by the loop is the clamp of some request entry:
positive quantity equal to `min requested available` for a line item
found on the order. -/
theorem buildRefundItems_ok_spec (lineItems : List OrderLineItem) (rt : String) :
    ∀ (req : List RefundLineItemRequest) (items : List RefundItemInput),
      buildRefundItems lineItems rt req = .ok items →
      ∀ it ∈ items, 0 < it.quantity ∧
        ∃ r ∈ req, ∃ li, byIdGet lineItems r.lineItemId = some li ∧
          it.line_item_id = r.lineItemId ∧ it.quantity = min r.quantity li.quantity := by
  intro req
  induction req with
  | nil =>
    intro items h it hit
    rw [buildRefundItems] at h
    cases h
    cases hit
  | cons r rest ih =>
    intro items h it hit
    rw [buildRefundItems] at h
    by_cases hr : r.quantity ≤ 0
    · rw [if_pos hr] at h
      obtain ⟨hq, r', hr', spec⟩ := ih items h it hit
      exact ⟨hq, r', List.mem_cons_of_mem r hr', spec⟩
    · rw [if_neg hr] at h
      cases hb : byIdGet lineItems r.lineItemId with
      | none => rw [hb] at h; cases h
      | some li =>
        rw [hb] at h
        cases hrest : buildRefundItems lineItems rt rest with
        | error msg => rw [hrest] at h; cases h
        | ok its =>
          rw [hrest] at h
          have hitems :
              (if 0 < min r.quantity li.quantity then
                (⟨r.lineItemId, min r.quantity li.quantity, rt⟩ : RefundItemInput) :: its
              else its) = items := by
            simpa [Except.map] using h
          by_cases hq : 0 < min r.quantity li.quantity
          · rw [if_pos hq] at hitems
            rcases List.mem_cons.mp (hitems ▸ hit) with rfl | hit'
            · exact ⟨hq, r, List.mem_cons_self r rest, li, hb, rfl, rfl⟩
            · obtain ⟨h1, r', hr', spec⟩ := ih its hrest it hit'
              exact ⟨h1, r', List.mem_cons_of_mem r hr', spec⟩
          · rw [if_neg hq] at hitems
            obtain ⟨h1, r', hr', spec⟩ := ih its hrest it (hitems ▸ hit)
            exact ⟨h1, r', List.mem_cons_of_mem r hr', spec⟩

/-- Claim C3 counterexample: the order has only line item 1, and the
request names the unknown id 999 — but with requested quantity 0, so the
loop skips it before the existence check and the refund succeeds with
the unknown id silently dropped. -/
theorem unknown_id_zero_quantity_silently_dropped :
    byIdGet [⟨1, 5⟩] 999 = none ∧
    refundPartialOrder [⟨1, 5⟩] "no_restock" [⟨999, 0⟩, ⟨1, 1⟩] =
      .ok [⟨1, 1, "no_restock"⟩] := by
  constructor <;> rfl

/-- Claim C3 (corrected): a requested line-item id absent from the order
makes `refundPartialOrder` fail — provided its requested quantity is
positive; entries with non-positive requested quantity are skipped
before the existence check, so an unknown id there is silently
dropped. -/
theorem refund_unknown_id_errors (lineItems : List OrderLineItem) (rt : String)
    (req : List RefundLineItemRequest) (e : RefundLineItemRequest)
    (he : e ∈ req) (hq : 0 < e.quantity) (hu : byIdGet lineItems e.lineItemId = none) :
    ∃ msg, refundPartialOrder lineItems rt req = .error msg := by
  obtain ⟨msg, hmsg⟩ := buildRefundItems_error_of_unknown lineItems rt req e he hq hu
  have hne : ¬req.length = 0 := by
    cases req with
    | nil => cases he
    | cons a l => simp
  rw [refundPartialOrder, if_neg hne, hmsg]
  exact ⟨msg, rfl⟩

/-- Witness for `refund_unknown_id_errors`: requesting one unit of the
unknown id 999 on an order that has only line item 1 errors. -/
theorem refund_unknown_id_errors_witness :
    ((⟨999, 1⟩ : RefundLineItemRequest) ∈ [(⟨999, 1⟩ : RefundLineItemRequest)] ∧
      (0 : ℤ) < 1 ∧ byIdGet [⟨1, 5⟩] 999 = none) ∧
    ∃ msg, refundPartialOrder [⟨1, 5⟩] "no_restock" [⟨999, 1⟩] = .error msg :=
  ⟨⟨List.mem_cons_self _ _, by norm_num, rfl⟩,
    refund_unknown_id_errors [⟨1, 5⟩] "no_restock" [⟨999, 1⟩] ⟨999, 1⟩
      (List.mem_cons_self _ _) (by norm_num) rfl⟩

/-- Claim C7 (confirmed): on success every forwarded quantity is the
positive clamp `min requested available` of some request entry whose id
is on the order, and at least one item is forwarded; an empty request,
or one whose quantities are all non-positive, is an error. -/
theorem partial_refund_clamping :
    (∀ (lineItems : List OrderLineItem) (rt : String)
        (req : List RefundLineItemRequest) (items : List RefundItemInput),
      refundPartialOrder lineItems rt req = .ok items →
      items ≠ [] ∧ ∀ it ∈ items, 0 < it.quantity ∧
        ∃ r ∈ req, ∃ li, byIdGet lineItems r.lineItemId = some li ∧
          it.line_item_id = r.lineItemId ∧ it.quantity = min r.quantity li.quantity) ∧
    (∀ (lineItems : List OrderLineItem) (rt : String) (req : List RefundLineItemRequest),
      (req = [] ∨ ∀ r ∈ req, r.quantity ≤ 0) →
      ∃ msg, refundPartialOrder lineItems rt req = .error msg) := by
  constructor
  · intro lineItems rt req items h
    rw [refundPartialOrder] at h
    by_cases hne : req.length = 0
    · rw [if_pos hne] at h; cases h
    · rw [if_neg hne] at h
      cases hb : buildRefundItems lineItems rt req with
      | error msg => rw [hb] at h; cases h
      | ok its =>
        rw [hb] at h
        dsimp only at h
        by_cases hz : its.length = 0
        · rw [if_pos hz] at h; cases h
        · rw [if_neg hz] at h
          cases h
          refine ⟨?_, buildRefundItems_ok_spec lineItems rt req items hb⟩
          intro hnil
          rw [hnil] at hz
          exact hz rfl
  · intro lineItems rt req h
    rcases h with rfl | h
    · exact ⟨_, rfl⟩
    · by_cases hne : req.length = 0
      · rw [refundPartialOrder, if_pos hne]
        exact ⟨_, rfl⟩
      · rw [refundPartialOrder, if_neg hne, buildRefundItems_all_nonpos lineItems rt req h]
        exact ⟨_, rfl⟩

/-- Witness for `partial_refund_clamping`: requesting 7 units of line
item 1 of which the order holds 5 forwards exactly one item with the
clamped quantity 5. -/
theorem partial_refund_clamping_witness :
    refundPartialOrder [⟨1, 5⟩] "no_restock" [⟨1, 7⟩] = .ok [⟨1, 5, "no_restock"⟩] ∧
    ([(⟨1, 5, "no_restock"⟩ : RefundItemInput)] ≠ [] ∧
      ∀ it ∈ [(⟨1, 5, "no_restock"⟩ : RefundItemInput)], 0 < it.quantity ∧
        ∃ r ∈ [(⟨1, 7⟩ : RefundLineItemRequest)], ∃ li,
          byIdGet [⟨1, 5⟩] r.lineItemId = some li ∧
          it.line_item_id = r.lineItemId ∧ it.quantity = min r.quantity li.quantity) :=
  ⟨rfl, partial_refund_clamping.1 [⟨1, 5⟩] "no_restock" [⟨1, 7⟩] [⟨1, 5, "no_restock"⟩] rfl⟩

/-! ### Unread count (claim C5) -/

/-- `MAX` of a non-empty set of timestamps is one of them. -/
theorem maxTime_mem {l : List ℤ} {t : ℤ} (h : maxTime l = some t) : t ∈ l := by
  induction l generalizing t with
  | nil => cases h
  | cons a l ih =>
    rw [maxTime] at h
    cases hl : maxTime l with
    | none =>
      rw [hl] at h
      cases h
      exact List.mem_cons_self a l
    | some m =>
      rw [hl] at h
      cases h
      rcases max_choice a m with hm | hm
      · rw [hm]; exact List.mem_cons_self a l
      · rw [hm]; exact List.mem_cons_of_mem a (ih hl)

/-- Claim C5 (confirmed): whenever every admin-sent message of the
request was created no earlier than the request itself — true of every
state the application can produce, since messages are inserted after
their request — the repository's `COALESCE(last_admin_time,
request_time)` threshold coincides with the spec's "later of" threshold,
so `getUnreadCountForAdmin` counts exactly the customer-sent messages
created strictly after the later of the request's creation time and the
most recent admin-sent message's creation time. -/
theorem unread_count_counts_after_later (requestCreated : ℤ) (msgs : List ChatMessage)
    (h : ∀ m ∈ msgs, m.sender = Sender.admin → requestCreated ≤ m.created_at) :
    getUnreadCountForAdmin requestCreated msgs =
      specUnreadCountForAdmin requestCreated msgs := by
  unfold getUnreadCountForAdmin specUnreadCountForAdmin
  cases hl : lastAdminTime msgs with
  | none => rfl
  | some t =>
    have ht : requestCreated ≤ t := by
      have hmem := maxTime_mem (hl ▸ rfl : maxTime
        ((msgs.filter fun m => decide (m.sender = Sender.admin)).map (·.created_at)) = some t)
      obtain ⟨m, hmf, hmt⟩ := List.mem_map.mp hmem
      obtain ⟨hmm, hms⟩ := List.mem_filter.mp hmf
      exact hmt ▸ h m hmm (of_decide_eq_true hms)
    simp [Option.getD, max_eq_right ht]

/-- Witness for `unread_count_counts_after_later`, the spec's own
scenario: request created at 0, admin message at 10, customer messages
at 5 and 20 — the unread count is 1 (only the message at 20), not 2. -/
theorem unread_count_counts_after_later_witness :
    (∀ m ∈ [(⟨Sender.admin, 10⟩ : ChatMessage), ⟨Sender.customer, 5⟩, ⟨Sender.customer, 20⟩],
      m.sender = Sender.admin → (0 : ℤ) ≤ m.created_at) ∧
    getUnreadCountForAdmin 0
      [⟨Sender.admin, 10⟩, ⟨Sender.customer, 5⟩, ⟨Sender.customer, 20⟩] = 1 :=
  ⟨by decide,
    (unread_count_counts_after_later 0
      [⟨Sender.admin, 10⟩, ⟨Sender.customer, 5⟩, ⟨Sender.customer, 20⟩] (by decide)).trans
      (by decide)⟩

/-! ### One open request per order (claim C2) -/

/-- The pairwise relation underlying `OneOpenPerOrder`. -/
def NotBothOpen (a b : HRequest) : Prop :=
  a.order_number = b.order_number → ¬(a.status.isOpen = true ∧ b.status.isOpen = true)

theorem oneOpen_def (store : List HRequest) :
    OneOpenPerOrder store ↔ store.Pairwise NotBothOpen := Iff.rfl

/-- An index-respecting insert preserves the invariant. -/
theorem oneOpen_insert (store : List HRequest) (r : HRequest)
    (hg : r.status.isOpen = true →
      ∀ x ∈ store, x.order_number = r.order_number → x.status.isOpen = false)
    (h : OneOpenPerOrder store) : OneOpenPerOrder (r :: store) := by
  rw [oneOpen_def, List.pairwise_cons]
  refine ⟨?_, h⟩
  rintro b hb hord ⟨hro, hbo⟩
  have hclosed := hg hro b hb hord.symm
  rw [hclosed] at hbo
  cases hbo

/-- An index-respecting status update preserves the invariant. -/
theorem oneOpen_update (l1 l2 : List HRequest) (r : HRequest) (s : HStatus)
    (hg : s.isOpen = true →
      ∀ x ∈ l1 ++ l2, x.order_number = r.order_number → x.status.isOpen = false)
    (h : OneOpenPerOrder (l1 ++ r :: l2)) :
    OneOpenPerOrder (l1 ++ { r with status := s } :: l2) := by
  rw [oneOpen_def, List.pairwise_append, List.pairwise_cons] at h ⊢
  obtain ⟨h1, ⟨hr2, h2⟩, h12⟩ := h
  refine ⟨h1, ⟨?_, h2⟩, ?_⟩
  · rintro b hb hord ⟨hro, hbo⟩
    have hclosed := hg hro b (List.mem_append_right l1 hb) hord.symm
    rw [hclosed] at hbo
    cases hbo
  · intro a ha b hb
    rcases List.mem_cons.mp hb with rfl | hb'
    · rintro hord ⟨hao, hbo⟩
      have hclosed := hg hbo a (List.mem_append_left l2 ha) hord
      rw [hclosed] at hao
      cases hao
    · exact h12 a ha b (List.mem_cons_of_mem r hb')

/-- Every table reachable through index-respecting steps satisfies the
invariant. -/
theorem oneOpen_reachable {store : List HRequest} (h : StoreReachable store) :
    OneOpenPerOrder store := by
  induction h with
  | init => exact List.Pairwise.nil
  | step _ st ih =>
    cases st with
    | insert store r hg => exact oneOpen_insert _ _ hg ih
    | update l1 l2 r s hg => exact oneOpen_update _ _ _ _ hg ih

/-- The claim's open-status set {pending, in_progress, approved} is
exactly the complement the partial index uses (`NOT IN ('completed',
'rejected')`) over the statuses the CHECK constraint allows. -/
theorem claim_open_iff (s : HStatus) :
    (s == HStatus.pending || s == HStatus.in_progress || s == HStatus.approved) =
      s.isOpen := by
  cases s <;> rfl

/-- Pairwise exclusion bounds the number of open rows per order. -/
theorem oneOpen_filter_le_one (store : List HRequest) (o : String)
    (h : OneOpenPerOrder store) :
    (store.filter fun r => r.order_number == o && r.status.isOpen).length ≤ 1 := by
  induction store with
  | nil => simp
  | cons a l ih =>
    rw [oneOpen_def, List.pairwise_cons] at h
    by_cases ha : (a.order_number == o && a.status.isOpen) = true
    · rw [List.filter_cons, if_pos ha]
      have hnil : l.filter (fun r => r.order_number == o && r.status.isOpen) = [] := by
        rw [List.filter_eq_nil_iff]
        intro b hb hpb
        obtain ⟨hao, haopen⟩ := Bool.and_eq_true_iff.mp ha
        obtain ⟨hbo, hbopen⟩ := Bool.and_eq_true_iff.mp hpb
        have hord : a.order_number = b.order_number := by
          rw [eq_of_beq hao, eq_of_beq hbo]
        exact h.1 b hb hord ⟨haopen, hbopen⟩
      rw [hnil]
      simp
    · rw [List.filter_cons, if_neg ha]
      exact ih h.2

/-- Claim C2 (confirmed): in every state of the `help_requests` table
reachable through inserts and status updates that respect the unique
partial index `idx_help_requests_one_open_per_order` — and nothing else:
the steps carry no application-level pre-check, so submissions racing
past `hasOpenRequestForOrder` are still covered — each order number has
at most one row whose status is `pending`, `in_progress` or
`approved`. -/
theorem one_open_request_per_order (store : List HRequest)
    (h : StoreReachable store) (o : String) :
    (store.filter fun r => r.order_number == o &&
      (r.status == HStatus.pending || r.status == HStatus.in_progress ||
        r.status == HStatus.approved)).length ≤ 1 := by
  have hfe : (store.filter fun r => r.order_number == o &&
      (r.status == HStatus.pending || r.status == HStatus.in_progress ||
        r.status == HStatus.approved)) =
      store.filter fun r => r.order_number == o && r.status.isOpen := by
    apply List.filter_congr
    intro r _
    rw [claim_open_iff]
  rw [hfe]
  exact oneOpen_filter_le_one store o (oneOpen_reachable h)

/-- Witness for `one_open_request_per_order`: the table holding a single
pending request for order 1001, reached by one index-respecting insert
into the empty table. -/
theorem one_open_request_per_order_witness :
    StoreReachable [⟨"1001", HStatus.pending⟩] ∧
    (([(⟨"1001", HStatus.pending⟩ : HRequest)].filter fun r => r.order_number == "1001" &&
      (r.status == HStatus.pending || r.status == HStatus.in_progress ||
        r.status == HStatus.approved)).length ≤ 1) :=
  have hr : StoreReachable [⟨"1001", HStatus.pending⟩] :=
    StoreReachable.step StoreReachable.init
      (StoreStep.insert [] ⟨"1001", HStatus.pending⟩
        (fun _ x hx => absurd hx (List.not_mem_nil x)))
  ⟨hr, one_open_request_per_order [⟨"1001", HStatus.pending⟩] hr "1001"⟩

end ShopifyBackend
